import Mathlib

/-!
Shallow embedding of the map-view core of the web-GIS repository
(`src/map-view-new.tsx`): WKT geometry parsing, categorical colors,
legend/visibility state, measurement, and value formatting.

JavaScript numbers are modelled as rationals (`ℚ`); the exact operations
the claims exercise (+, -, *, /, comparisons, floor for `toFixed`) are
arithmetically exact on every input the claims mention.  JavaScript strings
are modelled as `List Char` (one `Char` per UTF-16 code unit; all data the
component handles is in the basic plane).
-/

namespace GIS

/-- ASCII upper-casing, the fragment of JS `String.prototype.toUpperCase`
exercised by the WKT tags and coordinate text the parser sees. -/
def jsUpperChar (c : Char) : Char :=
  if 'a' ≤ c ∧ c ≤ 'z' then Char.ofNat (c.toNat - 32) else c

/-- `toUpperCase` over a whole string. -/
def jsUpper (s : List Char) : List Char := s.map jsUpperChar

/-- JS whitespace (`\s` of the regexes and `trim`), restricted to the ASCII
whitespace that occurs in WKT attribute values. -/
def isJsSpace (c : Char) : Bool :=
  c = ' ' ∨ c = '\t' ∨ c = '\n' ∨ c = '\r' ∨ c = '\x0c' ∨ c = '\x0b'

/-- JS `String.prototype.trim`. -/
def jsTrim (s : List Char) : List Char :=
  ((s.dropWhile isJsSpace).reverse.dropWhile isJsSpace).reverse

/-- Whether `pat` occurs contiguously inside `s`: JS
`String.prototype.includes`. -/
def hasSubstr (pat s : List Char) : Bool :=
  match s with
  | [] => pat.isPrefixOf ([] : List Char)
  | _ :: t => pat.isPrefixOf s || hasSubstr pat t

/-- ECMAScript `ToInt32`: wrap an integer into `[-2^31, 2^31)`. -/
def toInt32 (n : ℤ) : ℤ := (n + 2 ^ 31) % 2 ^ 32 - 2 ^ 31

/-! ## Categorical color assigner (`getColorForValue`, lines 917-930) -/

/-- The fixed 15-entry palette of `getColorForValue`. -/
def colors : List String :=
  ["#FF6B6B", "#4ECDC4", "#45B7D1", "#96CEB4", "#FECA57",
   "#FF9FF3", "#54A0FF", "#5F27CD", "#00D2D3", "#FF9F43",
   "#10AC84", "#EE5A24", "#0abde3", "#006ba6", "#f39801"]

/-- One step of the hash loop
`hash = value.charCodeAt(i) + ((hash << 5) - hash)`: the shift coerces
`hash` to int32 and wraps its result to int32, the subtraction and the
addition are exact (the values stay far below 2^53). -/
def jsHashStep (h : ℤ) (c : Char) : ℤ :=
  (c.toNat : ℤ) + (toInt32 (toInt32 h * 32) - h)

/-- The string hash of `getColorForValue`. -/
def jsHash (s : List Char) : ℤ := s.foldl jsHashStep 0

/-- `getColorForValue(value, field)`: hash the value and index the palette
by `Math.abs(hash) % colors.length`.  The `field` argument is accepted and
ignored, exactly as in the source. -/
def getColorForValue (value field : String) : String :=
  colors.get ⟨(jsHash value.data).natAbs % colors.length,
    Nat.mod_lt _ (by decide)⟩

/-! ## Measurement (`calculateLineDistance` / `calculatePolygonArea`,
lines 1090-1106) -/

/-- JS `Math.abs`. -/
def jsAbs (q : ℚ) : ℚ := if q < 0 then -q else q

/-- JS `Math.max` on two numbers (how Leaflet bounds extend north/east). -/
def jsMax (a b : ℚ) : ℚ := if a ≤ b then b else a

/-- JS `Math.min` on two numbers (how Leaflet bounds extend south/west). -/
def jsMin (a b : ℚ) : ℚ := if b ≤ a then b else a

/-- A Leaflet `LatLng`: latitude then longitude, in degrees. -/
def LatLng : Type := ℚ × ℚ

/-- `calculateLineDistance(points)`: the sum of `points[i].distanceTo
(points[i+1])` over consecutive points; `d` stands for Leaflet's native
point-to-point distance function. -/
def calculateLineDistance (d : LatLng → LatLng → ℚ) : List LatLng → ℚ
  | [] => 0
  | [_] => 0
  | p :: q :: t => d p q + calculateLineDistance d (q :: t)

/-- North edge of the Leaflet bounds of a point list: maximal latitude. -/
def boundsNorth (p : LatLng) (rest : List LatLng) : ℚ :=
  rest.foldl (fun acc q => jsMax acc q.1) p.1

/-- South edge: minimal latitude. -/
def boundsSouth (p : LatLng) (rest : List LatLng) : ℚ :=
  rest.foldl (fun acc q => jsMin acc q.1) p.1

/-- East edge: maximal longitude. -/
def boundsEast (p : LatLng) (rest : List LatLng) : ℚ :=
  rest.foldl (fun acc q => jsMax acc q.2) p.2

/-- West edge: minimal longitude. -/
def boundsWest (p : LatLng) (rest : List LatLng) : ℚ :=
  rest.foldl (fun acc q => jsMin acc q.2) p.2

/-- `calculatePolygonArea(points)` as written in the source.  The central
expression transcribes
`bounds.getNorth() - bounds.getSouth() * bounds.getEast() - bounds.getWest() * 111320 * 111320`
with JavaScript operator precedence: multiplication binds tighter than
subtraction, so it is `N - S*E - W*111320*111320`, not the bounding-box
area. -/
def calculatePolygonArea (points : List LatLng) : ℚ :=
  if points.length < 3 then 0
  else
    match points with
    | [] => 0
    | p :: rest =>
      jsAbs (boundsNorth p rest - boundsSouth p rest * boundsEast p rest -
        boundsWest p rest * 111320 * 111320)

/-- Modelled from the spec: the area the spec attributes to
`calculatePolygonArea` — "the difference of north and south times the
difference of east and west, scaled by the approximate meters-per-degree
constant 111320 in each dimension". -/
def specPolygonArea (points : List LatLng) : ℚ :=
  if points.length < 3 then 0
  else
    match points with
    | [] => 0
    | p :: rest =>
      jsAbs ((boundsNorth p rest - boundsSouth p rest) *
        (boundsEast p rest - boundsWest p rest) * 111320 * 111320)

/-! ## Formatting (`formatDistance` / `formatArea`, lines 1108-1144) -/

/-- Unit systems of the measurement subsystem. -/
inductive MUnits where
  | metric
  | imperial
deriving DecidableEq

/-- JS `Number.prototype.toFixed(2)` for the non-negative rationals the
formatters receive: round `q` to the nearest hundredth (ties away from
zero) and print with exactly two decimals. -/
def toFixed2 (q : ℚ) : String :=
  let n : ℕ := (Rat.floor (q * 100 + 1 / 2)).toNat
  let ip := n / 100
  let fp := n % 100
  toString ip ++ "." ++ (if fp < 10 then "0" ++ toString fp else toString fp)

/-- `formatDistance(meters)`, with the `measurementUnits` state passed
explicitly. -/
def formatDistance (units : MUnits) (meters : ℚ) : String :=
  match units with
  | .imperial =>
    let feet := meters * (328084 / 100000)
    if feet < 5280 then toFixed2 feet ++ " ft"
    else toFixed2 (feet / 5280) ++ " miles"
  | .metric =>
    if meters < 1000 then toFixed2 meters ++ " m"
    else toFixed2 (meters / 1000) ++ " km"

/-- `formatArea(sqMeters)`, with the `measurementUnits` state passed
explicitly. -/
def formatArea (units : MUnits) (sqMeters : ℚ) : String :=
  match units with
  | .imperial =>
    let sqFeet := sqMeters * (10764 / 1000)
    if sqFeet < 43560 then toFixed2 sqFeet ++ " sq ft"
    else toFixed2 (sqFeet / 43560) ++ " acres"
  | .metric =>
    if sqMeters < 10000 then toFixed2 sqMeters ++ " sq m"
    else toFixed2 (sqMeters / 10000) ++ " hectares"

/-! ## WKT parsing (`parseMultiPolygonManually`, lines 484-574, and the
geometry branch of the data-rendering effect, lines 270-300) -/

/-- The structured geometry the parser produces (the GeoJSON objects the
source builds; this core only emits single-ring polygons). -/
inductive Geometry where
  | polygon (ring : List (ℚ × ℚ))
  | multiPolygon (ring : List (ℚ × ℚ))
deriving DecidableEq

/-- A raw attribute value as it arrives from a record: the
`string | number | null` union of the geometry column. -/
inductive JsVal where
  | str (s : String)
  | num (q : ℚ)
  | null
deriving DecidableEq

/-- JS `parseFloat` on the decimal fragment of its grammar (optional sign,
digits, optional fraction, optional exponent), returning `none` where JS
returns `NaN`.  (`parseFloat` also accepts the literal `Infinity`, which
never denotes a coordinate; the model maps it to `none`.) -/
def jsParseFloat (s : List Char) : Option ℚ :=
  let s₁ := s.dropWhile isJsSpace
  let (sign, s₂) : ℚ × List Char :=
    match s₁ with
    | '-' :: t => (-1, t)
    | '+' :: t => (1, t)
    | _ => (1, s₁)
  let intDigits := s₂.takeWhile Char.isDigit
  let s₃ := s₂.dropWhile Char.isDigit
  let (fracDigits, s₄) : List Char × List Char :=
    match s₃ with
    | '.' :: t => (t.takeWhile Char.isDigit, t.dropWhile Char.isDigit)
    | _ => ([], s₃)
  if intDigits.isEmpty ∧ fracDigits.isEmpty then none
  else
    let digitVal : List Char → ℕ :=
      fun l => l.foldl (fun acc c => acc * 10 + (c.toNat - '0'.toNat)) 0
    let mantissa : ℚ :=
      (digitVal intDigits : ℚ) +
        (digitVal fracDigits : ℚ) / ((10 : ℚ) ^ fracDigits.length)
    let expo : ℤ :=
      match s₄ with
      | 'e' :: t => jsParseExp t
      | 'E' :: t => jsParseExp t
      | _ => 0
    some (sign * mantissa * (10 : ℚ) ^ expo)
where
  /-- Exponent part: optional sign then digits; an incomplete exponent is
  ignored by `parseFloat` (it stops before the `e`), giving exponent 0. -/
  jsParseExp (t : List Char) : ℤ :=
    let (esign, t₁) : ℤ × List Char :=
      match t with
      | '-' :: r => (-1, r)
      | '+' :: r => (1, r)
      | _ => (1, t)
    let ds := t₁.takeWhile Char.isDigit
    if ds.isEmpty then 0
    else esign * (ds.foldl (fun acc c => acc * 10 + (c.toNat - '0'.toNat)) 0 : ℕ)

/-- Split a character list at every comma: JS `String.prototype.split(',')`
(always at least one segment). -/
def splitComma (s : List Char) : List (List Char) :=
  match s with
  | [] => [[]]
  | c :: t =>
    let rest := splitComma t
    if c = ',' then [] :: rest
    else
      match rest with
      | [] => [[c]]
      | seg :: segs => (c :: seg) :: segs

/-- One right-fold step of whitespace splitting: a whitespace character
opens a fresh segment (runs collapse onto one boundary), any other
character extends the current segment. -/
def wsStep (c : Char) (acc : List (List Char)) : List (List Char) :=
  if isJsSpace c then
    match acc with
    | [] :: _ => acc
    | _ => [] :: acc
  else
    match acc with
    | [] => [[c]]
    | seg :: segs => (c :: seg) :: segs

/-- JS `split(/\s+/)` as the source applies it — always to an
already-trimmed string: the maximal runs of non-whitespace characters, and
the single empty token JS yields on the empty string. -/
def splitWs (s : List Char) : List (List Char) :=
  match s with
  | [] => [[]]
  | _ :: _ => s.foldr wsStep []

/-- Parse one comma-separated token into a coordinate pair, mirroring
`pair.trim().split(/\s+/)` followed by `parseFloat` of the first two
fields, with the `isNaN` validity check; the pair is `(lng, lat)`. -/
def parsePair (pair : List Char) : Option (ℚ × ℚ) :=
  let ws := splitWs (jsTrim pair)
  match ws.get? 0, ws.get? 1 with
  | some w0, some w1 =>
    match jsParseFloat w0, jsParseFloat w1 with
    | some lng, some lat => some (lng, lat)
    | _, _ => none
  | _, _ => none

/-- The coordinate-pair list of a captured coordinate string: split on
commas, parse each token, and keep the valid pairs. -/
def parseCoordPairs (coordString : List Char) : List (ℚ × ℚ) :=
  (splitComma coordString).filterMap parsePair

/-- Ring closing (lines 548-553): if the first and last parsed points
differ, append the first point. -/
def closeRing (pairs : List (ℚ × ℚ)) : List (ℚ × ℚ) :=
  match pairs with
  | [] => []
  | p :: _ => if pairs.getLast? = some p then pairs else pairs ++ [p]

/-- Case-insensitive literal match: consume `tag` from the head of `s`
(comparing upper-cased characters), returning the remainder. -/
def eatTag (tag : List Char) (s : List Char) : Option (List Char) :=
  match tag, s with
  | [], _ => some s
  | _ :: _, [] => none
  | t :: ts, c :: cs => if jsUpperChar c = t then eatTag ts cs else none

/-- Consume `n` occurrences of `\s*\(` from the head of `s`. -/
def eatOpens : ℕ → List Char → Option (List Char)
  | 0, s => some s
  | n + 1, s =>
    match s.dropWhile isJsSpace with
    | '(' :: t => eatOpens n t
    | _ => none

/-- Consume `n` occurrences of `\s*\)` from the head of `s`. -/
def eatCloses : ℕ → List Char → Option (List Char)
  | 0, s => some s
  | n + 1, s =>
    match s.dropWhile isJsSpace with
    | ')' :: t => eatCloses n t
    | _ => none

/-- Attempt the regex `TAG\s*(\s*(…(\s*([^)]+)\s*)…)\s*)` (with `opens`
parenthesis levels) at the head of `s`, returning the capture group.  The
greedy `[^)]+` extends to the last character before the first `)`; the
`\s*` ahead of it keeps the maximal whitespace prefix out of the capture
unless the whole run is whitespace, in which case backtracking leaves a
single whitespace character in the capture. -/
def matchWktAt (tag : List Char) (opens : ℕ) (s : List Char) :
    Option (List Char) :=
  match eatTag tag s with
  | none => none
  | some s₁ =>
    match eatOpens opens s₁ with
    | none => none
    | some s₂ =>
      let run := s₂.takeWhile (fun c => c ≠ ')')
      let rest := s₂.dropWhile (fun c => c ≠ ')')
      if run.isEmpty then none
      else
        let capture :=
          let core := run.dropWhile isJsSpace
          if core.isEmpty then
            match run.getLast? with
            | some c => [c]
            | none => []
          else core
        match rest with
        | ')' :: rest₁ =>
          match eatCloses (opens - 1) rest₁ with
          | some _ => some capture
          | none => none
        | _ => none

/-- JS `String.prototype.match` with the WKT pattern: try the pattern at
every start position, left to right, and return the first capture. -/
def scanWkt (tag : List Char) (opens : ℕ) : List Char → Option (List Char)
  | [] => none
  | c :: t =>
    match matchWktAt tag opens (c :: t) with
    | some capture => some capture
    | none => scanWkt tag opens t

/-- `parseMultiPolygonManually(wkt)` (lines 484-574): the truncation guard,
the tag dispatch with its two extraction regexes, the coordinate-pair
parse, the minimum-pair check, and the ring closing. -/
def parseMultiPolygonManually (wkt : List Char) : Option Geometry :=
  let upper := jsUpper wkt
  if hasSubstr "MULTIPOLYGON".data upper ∧ ¬ hasSubstr ")))".data wkt then
    none
  else
    let isMulti := hasSubstr "MULTIPOLYGON".data upper
    let coordString : Option (List Char) :=
      if isMulti then scanWkt "MULTIPOLYGON".data 3 wkt
      else if hasSubstr "POLYGON".data upper then scanWkt "POLYGON".data 2 wkt
      else none
    match coordString with
    | none => none
    | some cs =>
      let coordPairs := parseCoordPairs cs
      if coordPairs.length < 3 then none
      else if isMulti then some (Geometry.multiPolygon (closeRing coordPairs))
      else some (Geometry.polygon (closeRing coordPairs))

/-- The geometry branch of the rendering effect (lines 270-300): non-string
values are skipped; a string is trimmed and upper-cased and, when it starts
with `POLYGON` or `MULTIPOLYGON`, handed to the manual parser.  (The
`window.wellknown` fallback is an optional external library, absent here;
point-like values take a separate marker path and produce no `Geometry`.) -/
def parseRecordGeometry (v : JsVal) : Option Geometry :=
  match v with
  | .str s =>
    let clean := jsUpper (jsTrim s.data)
    if "POLYGON".data.isPrefixOf clean ∨ "MULTIPOLYGON".data.isPrefixOf clean
    then parseMultiPolygonManually s.data
    else none
  | _ => none

/-! ## Legend and visibility (`generateLegendData` lines 933-960,
`toggleLegendItem` lines 963-974, `updateLayerVisibility` lines 977-992,
and the Show All button handler, lines 1411-1423) -/

/-- A record, restricted to the string-valued attribute fields the legend
reads: field name to value, `none` for null/missing. -/
def Record : Type := List (String × Option String)

/-- `String(record[colorField] || 'No value')`: the stringified categorical
value, with `"No value"` substituted when the field is missing, null, or
the empty string (the falsy strings). -/
def catValue (r : Record) (colorField : String) : String :=
  match (List.lookup colorField r).join with
  | some s => if s = "" then "No value" else s
  | none => "No value"

/-- Set membership on the hidden-value list (`Set.prototype.has`). -/
def setHas (l : List String) (v : String) : Bool :=
  l.any fun w => decide (w = v)

/-- One legend entry: the distinct value, its color, the group size, and
the eye-toggle flag. -/
structure LegendItem where
  value : String
  color : String
  count : ℕ
  visible : Bool
deriving DecidableEq

/-- One step of the `valueColorMap` accumulation: increment the count of
`v` if present, else append `(v, 1)` (JS `Map` preserves insertion
order). -/
def bump (m : List (String × ℕ)) (v : String) : List (String × ℕ) :=
  match m with
  | [] => [(v, 1)]
  | (w, c) :: t => if w = v then (w, c + 1) :: t else (w, c) :: bump t v

/-- The value/count table built by the `data.forEach` loop of
`generateLegendData`. -/
def tally (vals : List String) : List (String × ℕ) := vals.foldl bump []

/-- `generateLegendData()`: empty when no categorical field is selected or
there is no data; otherwise one item per distinct stringified value, with
its count, its deterministic color, and `visible = !hiddenValues.has
(value)`. -/
def generateLegendData (data : List Record) (colorField : String)
    (hiddenValues : List String) : List LegendItem :=
  if colorField = "" ∨ colorField = "default" ∨ data.length = 0 then []
  else
    (tally (data.map (fun r => catValue r colorField))).map fun p =>
      { value := p.1
        color := getColorForValue p.1 colorField
        count := p.2
        visible := !setHas hiddenValues p.1 }

/-- The two style fields `updateLayerVisibility` writes:
`(opacity, fillOpacity)`. -/
def Style : Type := ℚ × ℚ

/-- The style of a hidden layer. -/
def hiddenStyle : Style := (0, 0)

/-- The style `updateLayerVisibility` restores on a shown layer. -/
def shownStyle : Style := (1, 3 / 10)

/-- A rendered map layer: the back-reference to its source record and the
current style.  (Geometry and popup content are never touched by the
visibility code; the record reference stands for the whole immutable
part.) -/
structure Layer where
  record : Record
  style : Style

/-- `updateLayerVisibility(hiddenVals)`: no-op without a categorical field,
otherwise restyle every layer from its own value's membership in the
hidden set. -/
def updateLayerVisibility (colorField : String) (hiddenVals : List String)
    (layers : List Layer) : List Layer :=
  if colorField = "" ∨ colorField = "default" then layers
  else
    layers.map fun l =>
      if setHas hiddenVals (catValue l.record colorField) then
        { l with style := hiddenStyle }
      else
        { l with style := shownStyle }

/-- The legend-relevant component state: the hidden-value set, the rendered
layers, and the generated legend items. -/
structure MapState where
  hiddenValues : List String
  layers : List Layer
  legendItems : List LegendItem

/-- The two legend operations of the claims. -/
inductive LegendOp where
  | toggle (value : String)
  | showAll

/-- `toggleLegendItem(value)`: flip `value` in the hidden set (JS
`Set.add`/`Set.delete`) and rerun `updateLayerVisibility` with the new set
(once directly, once more via the `hiddenValues` effect — idempotent).
`legendItems` is not touched: no effect regenerates it on a hidden-set
change. -/
def toggleLegendItem (colorField : String) (s : MapState) (value : String) :
    MapState :=
  let newHidden :=
    if setHas s.hiddenValues value then s.hiddenValues.filter (fun w => w ≠ value)
    else value :: s.hiddenValues
  { hiddenValues := newHidden
    layers := updateLayerVisibility colorField newHidden s.layers
    legendItems := s.legendItems }

/-- The Show All button handler: clear the hidden set (the `hiddenValues`
effect then reruns `updateLayerVisibility` with the empty set) and mark
every legend item visible. -/
def showAllLegend (colorField : String) (s : MapState) : MapState :=
  { hiddenValues := []
    layers := updateLayerVisibility colorField [] s.layers
    legendItems := s.legendItems.map fun it => { it with visible := true } }

/-- Apply one legend operation. -/
def applyLegendOp (colorField : String) (s : MapState) : LegendOp → MapState
  | .toggle v => toggleLegendItem colorField s v
  | .showAll => showAllLegend colorField s

/-- Apply a sequence of legend operations, oldest first. -/
def applyLegendOps (colorField : String) (s : MapState)
    (ops : List LegendOp) : MapState :=
  ops.foldl (applyLegendOp colorField) s

/-- The visibility the claims read off a layer: styled visible iff its
opacity is not zero. -/
def layerShown (l : Layer) : Bool := decide (l.style.1 ≠ 0)

/-- The count the value/count table stores for a value (0 when absent):
`valueColorMap.get(value).count`. -/
def entryCount (m : List (String × ℕ)) (w : String) : ℕ :=
  (List.lookup w m).getD 0

/-! ## Theorems -/

/-- C1: the claim says `calculatePolygonArea` returns
`|(north − south) × (east − west) × 111320 × 111320|`, the approximate
planar area of the bounding extent, so that a right triangle with 100 m
legs yields an area near 5000 sq m.  The source expression lacks the
parentheses: it computes `north − south·east − west·111320²`.  On the
right triangle with 100 m legs at the origin (0.0009° ≈ 100 m), the code
yields 0.0009 sq m while the formula the claim states yields ≈ 10038 sq m:
the code contradicts the spec's own stated formula and its 5000 sq m
scenario by seven orders of magnitude. -/
theorem calculatePolygonArea_drops_parens :
    calculatePolygonArea [((0 : ℚ), (0 : ℚ)), (9 / 10000, 0), (0, 9 / 10000)]
        = 9 / 10000 ∧
      specPolygonArea [((0 : ℚ), (0 : ℚ)), (9 / 10000, 0), (0, 9 / 10000)]
        = 627352209 / 62500 ∧
      calculatePolygonArea [((0 : ℚ), (0 : ℚ)), (9 / 10000, 0), (0, 9 / 10000)]
        < 1 ∧
      (9000 : ℚ) <
        specPolygonArea [((0 : ℚ), (0 : ℚ)), (9 / 10000, 0), (0, 9 / 10000)] := by
  refine ⟨?_, ?_, ?_, ?_⟩ <;>
    norm_num [calculatePolygonArea, specPolygonArea, boundsNorth, boundsSouth,
      boundsEast, boundsWest, jsMax, jsMin, jsAbs]

/-- C10: degenerate measurement inputs yield zero without error: fewer
than 2 points give `calculateLineDistance` 0 (for any distance function
the map surface supplies), and fewer than 3 points give
`calculatePolygonArea` 0. -/
theorem measurement_degenerate_zero :
    (∀ (d : LatLng → LatLng → ℚ) (pts : List LatLng),
        pts.length < 2 → calculateLineDistance d pts = 0) ∧
      ∀ pts : List LatLng, pts.length < 3 → calculatePolygonArea pts = 0 := by
  constructor
  · intro d pts h
    match pts with
    | [] => rfl
    | [_] => rfl
    | _ :: _ :: _ => simp [List.length_cons] at h; omega
  · intro pts h
    unfold calculatePolygonArea
    rw [if_pos h]

/-- Witness for C10 at concrete inputs: one point for the distance, two
points for the area. -/
theorem measurement_degenerate_zero_witness :
    calculateLineDistance (fun _ _ => 5) [((1 : ℚ), (2 : ℚ))] = 0 ∧
      calculatePolygonArea [((1 : ℚ), (2 : ℚ)), (3, 4)] = 0 :=
  ⟨measurement_degenerate_zero.1 (fun _ _ => 5) [((1 : ℚ), (2 : ℚ))] (by decide),
   measurement_degenerate_zero.2 [((1 : ℚ), (2 : ℚ)), (3, 4)] (by decide)⟩

/-- C7: in metric mode `formatDistance` renders 1000 m as `"1.00 km"` and
999 m as `"999.00 m"`, and `formatArea` renders 10000 sq m in hectares
and 9999 sq m in sq meters. -/
theorem format_metric_boundaries :
    formatDistance .metric 1000 = "1.00 km" ∧
      formatDistance .metric 999 = "999.00 m" ∧
      formatArea .metric 10000 = "1.00 hectares" ∧
      formatArea .metric 9999 = "9999.00 sq m" := by
  refine ⟨?_, ?_, ?_, ?_⟩ <;>
    norm_num [formatDistance, formatArea, toFixed2, Rat.floor]
  all_goals rfl

/-- C8: `getColorForValue` is a pure, deterministic function of the value
string alone — the `field` argument never influences the result — and its
result is always drawn from the fixed 15-entry palette. -/
theorem getColorForValue_deterministic :
    (∀ (v f g : String), getColorForValue v f = getColorForValue v g) ∧
      colors.length = 15 ∧
      ∀ (v f : String), getColorForValue v f ∈ colors :=
  ⟨fun _ _ _ => rfl, rfl, fun v f => List.get_mem colors _ _⟩

/-- C4: a string whose tag is `MULTIPOLYGON` (case-insensitively) but that
contains no `)))` sequence is rejected by `parseMultiPolygonManually`
before any extraction is attempted: the result is `none`, never a partial
shape. -/
theorem truncated_multipolygon_none (wkt : List Char)
    (hmp : hasSubstr "MULTIPOLYGON".data (jsUpper wkt) = true)
    (hcl : hasSubstr ")))".data wkt = false) :
    parseMultiPolygonManually wkt = none := by
  unfold parseMultiPolygonManually
  rw [if_pos]
  exact ⟨hmp, by simp [hcl]⟩

/-- Witness for C4: the truncated multipolygon of the spec's end-to-end
scenario. -/
theorem truncated_multipolygon_none_witness :
    parseMultiPolygonManually "MULTIPOLYGON (((0 0, 1 0, 1 1".data = none :=
  truncated_multipolygon_none "MULTIPOLYGON (((0 0, 1 0, 1 1".data
    (by decide) (by decide)

/-- C5: geometry parsing of a record value is a total function into
`Option Geometry` (it can never raise): numbers and nulls are skipped with
`none`, and a string that does not start (after trimming and upper-casing)
with `POLYGON` or `MULTIPOLYGON` also yields `none` — every unparseable
input produces `none` rather than an exception. -/
theorem parseRecordGeometry_none_on_unparseable :
    (∀ q : ℚ, parseRecordGeometry (.num q) = none) ∧
      parseRecordGeometry .null = none ∧
      ∀ s : String,
        "POLYGON".data.isPrefixOf (jsUpper (jsTrim s.data)) = false →
        "MULTIPOLYGON".data.isPrefixOf (jsUpper (jsTrim s.data)) = false →
        parseRecordGeometry (.str s) = none := by
  refine ⟨fun _ => rfl, rfl, fun s h1 h2 => ?_⟩
  unfold parseRecordGeometry
  simp [h1, h2]

theorem setHas_iff {l : List String} {w : String} :
    setHas l w = true ↔ w ∈ l := by
  simp [setHas, List.any_eq_true]

theorem setHas_filter_self (l : List String) (v : String) :
    setHas (l.filter fun w => w ≠ v) v = false := by
  simp [setHas, List.any_eq_false, List.mem_filter]

theorem setHas_filter_other {l : List String} {v w : String} (h : w ≠ v) :
    setHas (l.filter fun x => x ≠ v) w = setHas l w := by
  rcases hb : setHas l w with _ | _
  · simp only [setHas, List.any_eq_false, List.mem_filter] at hb ⊢
    intro x hx
    exact hb x hx.1
  · simp only [setHas_iff, List.mem_filter] at hb ⊢
    exact ⟨hb, by simpa using h⟩

theorem setHas_cons (a : String) (l : List String) (w : String) :
    setHas (a :: l) w = (decide (w = a) || setHas l w) := by
  simp only [setHas, List.any_cons]
  congr 1
  exact decide_eq_decide.2 eq_comm

theorem updateLayerVisibility_records (cf : String) (h : List String)
    (ls : List Layer) :
    (updateLayerVisibility cf h ls).map (fun l => l.record) =
      ls.map (fun l => l.record) := by
  unfold updateLayerVisibility
  split
  · rfl
  · rw [List.map_map]
    refine List.map_congr_left fun l _ => ?_
    by_cases hc : setHas h (catValue l.record cf) = true <;>
      simp [Function.comp, hc]

theorem layerShown_hidden (r : Record) :
    layerShown { record := r, style := hiddenStyle } = false := by
  simp [layerShown, hiddenStyle]

theorem layerShown_shown (r : Record) :
    layerShown { record := r, style := shownStyle } = true := by
  simp [layerShown, shownStyle]

theorem updateLayerVisibility_consistent {cf : String} (h : List String)
    (ls : List Layer) (h1 : cf ≠ "") (h2 : cf ≠ "default") :
    ∀ l ∈ updateLayerVisibility cf h ls,
      layerShown l = !setHas h (catValue l.record cf) := by
  intro l hl
  unfold updateLayerVisibility at hl
  rw [if_neg (by simp [h1, h2])] at hl
  obtain ⟨l₀, -, rfl⟩ := List.mem_map.1 hl
  by_cases hc : setHas h (catValue l₀.record cf) = true
  · simp [hc, layerShown, hiddenStyle]
  · rw [Bool.not_eq_true] at hc
    simp [hc, layerShown, shownStyle]

theorem applyLegendOp_consistent {cf : String} (s : MapState) (op : LegendOp)
    (h1 : cf ≠ "") (h2 : cf ≠ "default") :
    ∀ l ∈ (applyLegendOp cf s op).layers,
      layerShown l =
        !setHas (applyLegendOp cf s op).hiddenValues (catValue l.record cf) := by
  cases op with
  | toggle v => exact updateLayerVisibility_consistent _ _ h1 h2
  | showAll => exact updateLayerVisibility_consistent _ _ h1 h2

/-- Witness for C5: a plain unparseable string, beside a number and a
null. -/
theorem parseRecordGeometry_none_on_unparseable_witness :
    parseRecordGeometry (.num 5) = none ∧
      parseRecordGeometry .null = none ∧
      parseRecordGeometry (.str "not a geometry (1 2)") = none :=
  ⟨parseRecordGeometry_none_on_unparseable.1 5,
   parseRecordGeometry_none_on_unparseable.2.1,
   parseRecordGeometry_none_on_unparseable.2.2 "not a geometry (1 2)"
     (by decide) (by decide)⟩

theorem lookup_cons_ne {β : Type} {a k : String} (b : β)
    (es : List (String × β)) (h : a ≠ k) :
    ((k, b) :: es).lookup a = es.lookup a := by
  rw [List.lookup_cons]
  rw [show (a == k) = false from beq_eq_false_iff_ne.2 h]

theorem entryCount_bump_self (m : List (String × ℕ)) (v : String) :
    entryCount (bump m v) v = entryCount m v + 1 := by
  induction m with
  | nil => simp [bump, entryCount]
  | cons p t ih =>
    obtain ⟨w, c⟩ := p
    by_cases h : w = v
    · subst h
      simp [bump, entryCount]
    · rw [show bump ((w, c) :: t) v = (w, c) :: bump t v from by
        simp [bump, h]]
      unfold entryCount
      rw [lookup_cons_ne _ _ (Ne.symm h), lookup_cons_ne _ _ (Ne.symm h)]
      exact ih

theorem entryCount_bump_other (m : List (String × ℕ)) {v w : String}
    (h : w ≠ v) : entryCount (bump m v) w = entryCount m w := by
  induction m with
  | nil =>
    unfold entryCount bump
    rw [lookup_cons_ne _ _ h]
  | cons p t ih =>
    obtain ⟨a, c⟩ := p
    by_cases ha : a = v
    · subst ha
      rw [show bump ((a, c) :: t) a = (a, c + 1) :: t from by simp [bump]]
      unfold entryCount
      rw [lookup_cons_ne _ _ h, lookup_cons_ne _ _ h]
    · rw [show bump ((a, c) :: t) v = (a, c) :: bump t v from by
        simp [bump, ha]]
      by_cases haw : w = a
      · subst haw
        simp [entryCount]
      · unfold entryCount
        rw [lookup_cons_ne _ _ haw, lookup_cons_ne _ _ haw]
        exact ih

theorem entryCount_foldl (l : List String) (m : List (String × ℕ))
    (w : String) :
    entryCount (l.foldl bump m) w = entryCount m w + l.count w := by
  induction l generalizing m with
  | nil => simp
  | cons a t ih =>
    rw [List.foldl_cons, ih, List.count_cons]
    by_cases h : w = a
    · subst h
      rw [entryCount_bump_self]
      simp only [beq_self_eq_true, if_true]
      omega
    · rw [entryCount_bump_other m h]
      rw [show (a == w) = false from beq_eq_false_iff_ne.2 (Ne.symm h)]
      simp

theorem bump_fst (m : List (String × ℕ)) (v : String) :
    (bump m v).map Prod.fst =
      if v ∈ m.map Prod.fst then m.map Prod.fst
      else m.map Prod.fst ++ [v] := by
  induction m with
  | nil => simp [bump]
  | cons p t ih =>
    obtain ⟨a, c⟩ := p
    by_cases ha : a = v
    · subst ha
      simp [bump]
    · simp only [bump, if_neg ha, List.map_cons, ih, List.mem_cons]
      by_cases hv : v ∈ t.map Prod.fst
      · simp [hv, Ne.symm ha]
      · simp [hv, Ne.symm ha]

theorem mem_bump_fst (m : List (String × ℕ)) (v w : String) :
    w ∈ (bump m v).map Prod.fst ↔ w ∈ m.map Prod.fst ∨ w = v := by
  rw [bump_fst]
  by_cases hv : v ∈ m.map Prod.fst
  · rw [if_pos hv]
    constructor
    · exact Or.inl
    · rintro (h | rfl)
      · exact h
      · exact hv
  · rw [if_neg hv]
    simp

theorem nodup_bump_fst {m : List (String × ℕ)} (v : String)
    (h : (m.map Prod.fst).Nodup) : ((bump m v).map Prod.fst).Nodup := by
  rw [bump_fst]
  by_cases hv : v ∈ m.map Prod.fst
  · rwa [if_pos hv]
  · rw [if_neg hv]
    refine List.Nodup.append h (List.nodup_singleton v) ?_
    intro x hx hx2
    rw [List.mem_singleton] at hx2
    subst hx2
    exact hv hx

theorem mem_foldl_bump_fst (l : List String) (m : List (String × ℕ))
    (w : String) :
    w ∈ (l.foldl bump m).map Prod.fst ↔ w ∈ m.map Prod.fst ∨ w ∈ l := by
  induction l generalizing m with
  | nil => simp
  | cons a t ih =>
    rw [List.foldl_cons, ih, mem_bump_fst]
    simp only [List.mem_cons]
    tauto

theorem nodup_foldl_bump_fst (l : List String) {m : List (String × ℕ)}
    (h : (m.map Prod.fst).Nodup) : ((l.foldl bump m).map Prod.fst).Nodup := by
  induction l generalizing m with
  | nil => exact h
  | cons a t ih => exact ih (nodup_bump_fst a h)

theorem entryCount_of_mem {m : List (String × ℕ)}
    (h : (m.map Prod.fst).Nodup) {w : String} {c : ℕ} (hm : (w, c) ∈ m) :
    entryCount m w = c := by
  induction m with
  | nil => cases hm
  | cons p t ih =>
    obtain ⟨a, b⟩ := p
    rcases List.mem_cons.1 hm with heq | htail
    · cases heq
      simp [entryCount]
    · have haw : w ≠ a := by
        intro hcontra
        subst hcontra
        have hwm : w ∈ t.map Prod.fst := List.mem_map.2 ⟨(w, c), htail, rfl⟩
        simp_all
      have ht : (t.map Prod.fst).Nodup :=
        (List.nodup_cons.1 (by simpa using h)).2
      unfold entryCount
      rw [lookup_cons_ne _ _ haw]
      exact ih ht htail

/-- C6: `generateLegendData` groups the records by the stringified value of
the color field (with `"No value"` for null/empty), yielding exactly one
legend item per distinct value; each item's count is the number of records
in its group, its color is the deterministic categorical color of its
value, and its visible flag reads the hidden-value set. -/
theorem generateLegendData_groups (data : List Record) (cf : String)
    (hidden : List String) (h1 : cf ≠ "") (h2 : cf ≠ "default")
    (h3 : data ≠ []) :
    ((generateLegendData data cf hidden).map (fun it => it.value)).Nodup ∧
      (∀ v, v ∈ (generateLegendData data cf hidden).map (fun it => it.value) ↔
        v ∈ data.map (fun r => catValue r cf)) ∧
      ∀ it ∈ generateLegendData data cf hidden,
        it.count = (data.map (fun r => catValue r cf)).count it.value ∧
          it.color = getColorForValue it.value cf ∧
          it.visible = !setHas hidden it.value := by
  have hguard : ¬ (cf = "" ∨ cf = "default" ∨ data.length = 0) := by
    simp [h1, h2, List.length_eq_zero, h3]
  unfold generateLegendData
  rw [if_neg hguard]
  have hfst : ∀ (ms : List (String × ℕ)),
      (ms.map fun p =>
        ({ value := p.1, color := getColorForValue p.1 cf, count := p.2,
           visible := !setHas hidden p.1 } : LegendItem)).map
          (fun it => it.value) = ms.map Prod.fst := by
    intro ms
    rw [List.map_map]
    rfl
  refine ⟨?_, ?_, ?_⟩
  · rw [hfst]
    exact nodup_foldl_bump_fst _ (by simp)
  · intro v
    rw [hfst]
    simpa using mem_foldl_bump_fst (data.map fun r => catValue r cf) [] v
  · intro it hit
    obtain ⟨p, hp, rfl⟩ := List.mem_map.1 hit
    refine ⟨?_, rfl, rfl⟩
    have hnd : ((tally (data.map fun r => catValue r cf)).map Prod.fst).Nodup :=
      nodup_foldl_bump_fst _ (by simp)
    have := entryCount_of_mem hnd (w := p.1) (c := p.2) (by simpa using hp)
    have hcount := entryCount_foldl (data.map fun r => catValue r cf) [] p.1
    simp only [entryCount, List.lookup, Option.getD_none] at hcount
    rw [← this]
    simpa [tally, entryCount] using hcount

/-- Witness for C6: three records over two distinct values of field
`"s"`, with one value hidden. -/
theorem generateLegendData_groups_witness :
    ((generateLegendData [[("s", some "A")], [("s", some "B")],
        [("s", some "A")]] "s" ["B"]).map (fun it => it.value)).Nodup ∧
      (∀ v, v ∈ (generateLegendData [[("s", some "A")], [("s", some "B")],
          [("s", some "A")]] "s" ["B"]).map (fun it => it.value) ↔
        v ∈ ([[("s", some "A")], [("s", some "B")],
          [("s", some "A")]] : List Record).map (fun r => catValue r "s")) ∧
      ∀ it ∈ generateLegendData [[("s", some "A")], [("s", some "B")],
          [("s", some "A")]] "s" ["B"],
        it.count = (([[("s", some "A")], [("s", some "B")],
            [("s", some "A")]] : List Record).map
              (fun r => catValue r "s")).count it.value ∧
          it.color = getColorForValue it.value "s" ∧
          it.visible = !setHas ["B"] it.value :=
  generateLegendData_groups
    [[("s", some "A")], [("s", some "B")], [("s", some "A")]] "s" ["B"]
    (by decide) (by decide) (by simp)

theorem closeRing_closed (l : List (ℚ × ℚ)) (hl : l ≠ []) :
    (closeRing l).head? = (closeRing l).getLast? := by
  obtain ⟨p, t, rfl⟩ := List.exists_cons_of_ne_nil hl
  rw [show closeRing (p :: t) =
    (if (p :: t).getLast? = some p then p :: t else (p :: t) ++ [p]) from rfl]
  by_cases h : (p :: t).getLast? = some p
  · rw [if_pos h, h]
    rfl
  · rw [if_neg h, List.getLast?_concat, List.cons_append, List.head?_cons]

theorem scanWkt_head (tag : List Char) (n : ℕ) (s : List Char) (r : List Char)
    (hne : s ≠ []) (h : matchWktAt tag n s = some r) :
    scanWkt tag n s = some r := by
  obtain ⟨c, t, rfl⟩ := List.exists_cons_of_ne_nil hne
  unfold scanWkt
  rw [h]

/-- C3: for a WKT string of the form `POLYGON((body))` whose body is a
parenthesis-free coordinate list (starting with a non-space character and
never spelling a `MULTIPOLYGON` tag), the manual parser returns a
`Polygon` whose ring is the coordinate-pair list closed by appending the
first point when the input ring is unclosed — so the ring's first point
always equals its last — and returns `null` when fewer than 3 valid
coordinate pairs are present. -/
theorem polygon_parse_closed_ring (body : List Char) (hb : body ≠ [])
    (hws : body.dropWhile isJsSpace = body)
    (hnp : body.all (fun c => c ≠ ')') = true)
    (hnm : hasSubstr "MULTIPOLYGON".data
      (jsUpper ("POLYGON((".data ++ body ++ "))".data)) = false) :
    (3 ≤ (parseCoordPairs body).length →
      parseMultiPolygonManually ("POLYGON((".data ++ body ++ "))".data) =
          some (.polygon (closeRing (parseCoordPairs body))) ∧
        (closeRing (parseCoordPairs body)).head? =
          (closeRing (parseCoordPairs body)).getLast? ∧
        ((parseCoordPairs body).getLast? = (parseCoordPairs body).head? →
          closeRing (parseCoordPairs body) = parseCoordPairs body) ∧
        ((parseCoordPairs body).getLast? ≠ (parseCoordPairs body).head? →
          ∃ p, (parseCoordPairs body).head? = some p ∧
            closeRing (parseCoordPairs body) = parseCoordPairs body ++ [p])) ∧
      ((parseCoordPairs body).length < 3 →
        parseMultiPolygonManually ("POLYGON((".data ++ body ++ "))".data) =
          none) := by
  have hall : ∀ c ∈ body, (fun c => decide (c ≠ ')')) c = true :=
    List.all_eq_true.1 hnp
  have htag : eatTag "POLYGON".data
      ("POLYGON((".data ++ body ++ "))".data) =
      some ('(' :: '(' :: (body ++ "))".data)) := rfl
  have hopen : eatOpens 2 ('(' :: '(' :: (body ++ "))".data)) =
      some (body ++ "))".data) := rfl
  have htake : (body ++ "))".data).takeWhile (fun c => decide (c ≠ ')')) =
      body := by
    rw [show ("))".data : List Char) = [')', ')'] from rfl,
      List.takeWhile_append_of_pos hall,
      show List.takeWhile (fun c => decide (c ≠ ')')) [')', ')'] = [] from rfl,
      List.append_nil]
  have hdrop : (body ++ "))".data).dropWhile (fun c => decide (c ≠ ')')) =
      [')', ')'] := by
    rw [show ("))".data : List Char) = [')', ')'] from rfl,
      List.dropWhile_append_of_pos hall]
    rfl
  have hbody_empty : body.isEmpty = false := by
    obtain ⟨c0, t0, rfl⟩ := List.exists_cons_of_ne_nil hb
    rfl
  have hmatch : matchWktAt "POLYGON".data 2
      ("POLYGON((".data ++ body ++ "))".data) = some body := by
    unfold matchWktAt
    simp only [htag, hopen, htake, hdrop, hbody_empty, hws,
      Bool.false_eq_true, if_false]
    rfl
  have hscan : scanWkt "POLYGON".data 2
      ("POLYGON((".data ++ body ++ "))".data) = some body :=
    scanWkt_head _ _ _ _ (by simp) hmatch
  have hup : hasSubstr "POLYGON".data
      (jsUpper ("POLYGON((".data ++ body ++ "))".data)) = true := by
    have : jsUpper ("POLYGON((".data ++ body ++ "))".data) =
        "POLYGON((".data ++ (jsUpper body ++ jsUpper "))".data) := by
      unfold jsUpper
      rw [List.map_append, List.map_append, List.append_assoc]
      rfl
    rw [this]
    rfl
  have hparse : parseMultiPolygonManually
      ("POLYGON((".data ++ body ++ "))".data) =
      (if (parseCoordPairs body).length < 3 then none
       else some (.polygon (closeRing (parseCoordPairs body)))) := by
    unfold parseMultiPolygonManually
    simp only [hnm, hup, hscan, Bool.false_eq_true, false_and, if_false,
      if_true, not_false_eq_true, and_true, eq_self_iff_true]
  constructor
  · intro hlen
    refine ⟨?_, closeRing_closed _ ?_, ?_, ?_⟩
    · rw [hparse, if_neg (by omega)]
    · intro hcontra
      rw [hcontra] at hlen
      simp at hlen
    · intro hclosed
      obtain ⟨p, t, hpt⟩ := List.exists_cons_of_ne_nil
        (show parseCoordPairs body ≠ [] from by
          intro hcontra; rw [hcontra] at hlen; simp at hlen)
      rw [hpt, show closeRing (p :: t) =
        (if (p :: t).getLast? = some p then p :: t else (p :: t) ++ [p]) from
          rfl]
      rw [if_pos (by rw [← hpt, hclosed, hpt, List.head?_cons])]
    · intro hopen2
      obtain ⟨p, t, hpt⟩ := List.exists_cons_of_ne_nil
        (show parseCoordPairs body ≠ [] from by
          intro hcontra; rw [hcontra] at hlen; simp at hlen)
      refine ⟨p, by rw [hpt, List.head?_cons], ?_⟩
      rw [hpt, show closeRing (p :: t) =
        (if (p :: t).getLast? = some p then p :: t else (p :: t) ++ [p]) from
          rfl]
      rw [if_neg (by rw [← hpt]; intro hcontra; exact hopen2 (by
        rw [hcontra, hpt, List.head?_cons]))]
  · intro hlen
    rw [hparse, if_pos hlen]

/-- Witness for C3, both branches: a body of three unclosed coordinate
pairs yields a closed 4-point ring, and a body of two pairs yields null. -/
theorem polygon_parse_closed_ring_witness :
    (3 ≤ (parseCoordPairs "0 0, 1 0, 1 1".data).length →
      parseMultiPolygonManually
          ("POLYGON((".data ++ "0 0, 1 0, 1 1".data ++ "))".data) =
          some (.polygon (closeRing (parseCoordPairs "0 0, 1 0, 1 1".data))) ∧
        (closeRing (parseCoordPairs "0 0, 1 0, 1 1".data)).head? =
          (closeRing (parseCoordPairs "0 0, 1 0, 1 1".data)).getLast? ∧
        ((parseCoordPairs "0 0, 1 0, 1 1".data).getLast? =
            (parseCoordPairs "0 0, 1 0, 1 1".data).head? →
          closeRing (parseCoordPairs "0 0, 1 0, 1 1".data) =
            parseCoordPairs "0 0, 1 0, 1 1".data) ∧
        ((parseCoordPairs "0 0, 1 0, 1 1".data).getLast? ≠
            (parseCoordPairs "0 0, 1 0, 1 1".data).head? →
          ∃ p, (parseCoordPairs "0 0, 1 0, 1 1".data).head? = some p ∧
            closeRing (parseCoordPairs "0 0, 1 0, 1 1".data) =
              parseCoordPairs "0 0, 1 0, 1 1".data ++ [p])) ∧
      ((parseCoordPairs "0 0, 1 0, 1 1".data).length < 3 →
        parseMultiPolygonManually
            ("POLYGON((".data ++ "0 0, 1 0, 1 1".data ++ "))".data) = none) :=
  polygon_parse_closed_ring "0 0, 1 0, 1 1".data (by decide) (by decide)
    (by decide) (by decide)

/-- C2 counterexample: the claimed three-way agreement fails on the code.
From a freshly generated state with one feature of value `"A"`, a single
`toggle("A")` puts `"A"` into the hidden set and hides the layer, but no
effect regenerates the legend items, so the legend item's `visible` flag
stays `true` while `!hiddenValues.has("A")` is `false`. -/
theorem legend_flag_desyncs_after_toggle :
    (applyLegendOps "status"
        { hiddenValues := []
          layers := [{ record := [("status", some "A")], style := shownStyle }]
          legendItems := generateLegendData [[("status", some "A")]] "status" [] }
        [.toggle "A"]).hiddenValues = ["A"] ∧
      (applyLegendOps "status"
          { hiddenValues := []
            layers := [{ record := [("status", some "A")], style := shownStyle }]
            legendItems := generateLegendData [[("status", some "A")]] "status" [] }
          [.toggle "A"]).legendItems.map (fun it => (it.value, it.visible)) =
        [("A", true)] ∧
      ((applyLegendOps "status"
          { hiddenValues := []
            layers := [{ record := [("status", some "A")], style := shownStyle }]
            legendItems := generateLegendData [[("status", some "A")]] "status" [] }
          [.toggle "A"]).legendItems.all fun it =>
        it.visible ==
          !setHas (applyLegendOps "status"
              { hiddenValues := []
                layers :=
                  [{ record := [("status", some "A")], style := shownStyle }]
                legendItems :=
                  generateLegendData [[("status", some "A")]] "status" [] }
              [.toggle "A"]).hiddenValues it.value) = false := by
  refine ⟨rfl, rfl, rfl⟩

/-- C2 amended: after any nonempty sequence of toggle/showAll operations
(with a categorical field selected) every feature's visibility equals
`!hiddenValues.has(stringify(record[colorField]))`; the legend items'
`visible` flags, however, are only refreshed by showAll (or a legend
rebuild), so the legend-flag half of the original claim holds when the
last operation is showAll rather than after arbitrary toggles. -/
theorem layers_match_hidden_after_ops (cf : String) (s : MapState)
    (ops : List LegendOp) (h1 : cf ≠ "") (h2 : cf ≠ "default")
    (hne : ops ≠ []) :
    (∀ l ∈ (applyLegendOps cf s ops).layers,
        layerShown l =
          !setHas (applyLegendOps cf s ops).hiddenValues
            (catValue l.record cf)) ∧
      (ops.getLast? = some .showAll →
        (applyLegendOps cf s ops).hiddenValues = [] ∧
          ∀ it ∈ (applyLegendOps cf s ops).legendItems, it.visible = true) := by
  induction ops generalizing s with
  | nil => exact absurd rfl hne
  | cons op rest ih =>
    cases rest with
    | nil =>
      refine ⟨applyLegendOp_consistent s op h1 h2, fun hlast => ?_⟩
      cases op with
      | toggle v => simp at hlast
      | showAll =>
        refine ⟨rfl, fun it hit => ?_⟩
        obtain ⟨it₀, -, rfl⟩ :=
          List.mem_map.1 (by simpa [applyLegendOps, applyLegendOp,
            showAllLegend] using hit)
        rfl
    | cons op2 rest2 =>
      have step : applyLegendOps cf s (op :: op2 :: rest2) =
          applyLegendOps cf (applyLegendOp cf s op) (op2 :: rest2) := rfl
      rw [step, List.getLast?_cons_cons]
      exact ih (applyLegendOp cf s op) (by simp)

/-- Witness for the amended C2 theorem: a toggle followed by showAll on a
concrete one-feature state. -/
theorem layers_match_hidden_after_ops_witness :
    (∀ l ∈ (applyLegendOps "status"
        { hiddenValues := []
          layers := [{ record := [("status", some "A")], style := shownStyle }]
          legendItems := generateLegendData [[("status", some "A")]] "status" [] }
        [.toggle "A", .showAll]).layers,
        layerShown l =
          !setHas (applyLegendOps "status"
              { hiddenValues := []
                layers :=
                  [{ record := [("status", some "A")], style := shownStyle }]
                legendItems :=
                  generateLegendData [[("status", some "A")]] "status" [] }
              [.toggle "A", .showAll]).hiddenValues
            (catValue l.record "status")) ∧
      (([LegendOp.toggle "A", .showAll] : List LegendOp).getLast? =
          some .showAll →
        (applyLegendOps "status"
            { hiddenValues := []
              layers :=
                [{ record := [("status", some "A")], style := shownStyle }]
              legendItems :=
                generateLegendData [[("status", some "A")]] "status" [] }
            [.toggle "A", .showAll]).hiddenValues = [] ∧
          ∀ it ∈ (applyLegendOps "status"
              { hiddenValues := []
                layers :=
                  [{ record := [("status", some "A")], style := shownStyle }]
                legendItems :=
                  generateLegendData [[("status", some "A")]] "status" [] }
              [.toggle "A", .showAll]).legendItems, it.visible = true) :=
  layers_match_hidden_after_ops "status" _ [.toggle "A", .showAll]
    (by decide) (by decide) (by simp)

/-- C9 counterexample: `toggle` does not leave the styles of the other
categories' features untouched.  With one feature whose value is `"B"`
carrying a non-default style (as the attribute filter produces), toggling
`"A"` rewrites that feature's style to the default shown style even though
its value differs from the toggled one. -/
theorem toggle_restyles_other_values :
    catValue [("status", some "B")] "status" ≠ "A" ∧
      (toggleLegendItem "status"
          { hiddenValues := []
            layers :=
              [{ record := [("status", some "B")],
                 style := ((3 : ℚ) / 10, (1 : ℚ) / 10) }]
            legendItems := [] }
          "A").layers.map (fun l => l.style) = [shownStyle] ∧
      (((3 : ℚ) / 10, (1 : ℚ) / 10) : Style) ≠ shownStyle := by
  refine ⟨by decide, ?_, ?_⟩
  · simp [toggleLegendItem, updateLayerVisibility, setHas, catValue]
  · simp only [shownStyle, Style, Prod.mk.injEq, ne_eq, not_and]
    intro h
    norm_num at h

/-- C9 amended: `toggle(value)` flips `value`'s membership in the hidden
set and leaves every other value's membership unchanged; it rebuilds no
feature (the record list of the layers is preserved, no geometry is
reparsed) but it reapplies visibility to EVERY layer from its own value's
membership, so features of other values keep their style only when that
style already agreed with their visibility state. -/
theorem toggle_frame_effect (cf v : String) (s : MapState) (h1 : cf ≠ "")
    (h2 : cf ≠ "default")
    (hcons : ∀ l ∈ s.layers,
      l.style = if setHas s.hiddenValues (catValue l.record cf) then
        hiddenStyle else shownStyle) :
    (setHas (toggleLegendItem cf s v).hiddenValues v =
        !setHas s.hiddenValues v) ∧
      (∀ w, w ≠ v →
        setHas (toggleLegendItem cf s v).hiddenValues w =
          setHas s.hiddenValues w) ∧
      ((toggleLegendItem cf s v).layers.map (fun l => l.record) =
        s.layers.map (fun l => l.record)) ∧
      (toggleLegendItem cf s v).layers =
        s.layers.map (fun l =>
          if catValue l.record cf = v then
            { l with style :=
                if setHas (toggleLegendItem cf s v).hiddenValues v then
                  hiddenStyle
                else shownStyle }
          else l) := by
  have hhid : (toggleLegendItem cf s v).hiddenValues =
      (if setHas s.hiddenValues v then s.hiddenValues.filter (fun w => w ≠ v)
       else v :: s.hiddenValues) := by
    unfold toggleLegendItem
    split <;> rfl
  have hflip : setHas (toggleLegendItem cf s v).hiddenValues v =
      !setHas s.hiddenValues v := by
    rw [hhid]
    rcases hv : setHas s.hiddenValues v with _ | _
    · rw [if_neg (by simp), setHas_cons]
      simp
    · rw [if_pos rfl, setHas_filter_self]
      rfl
  have hother : ∀ w, w ≠ v →
      setHas (toggleLegendItem cf s v).hiddenValues w =
        setHas s.hiddenValues w := by
    intro w hw
    rw [hhid]
    rcases hv : setHas s.hiddenValues v with _ | _
    · rw [if_neg (by simp), setHas_cons]
      simp [hw]
    · rw [if_pos rfl]
      exact setHas_filter_other hw
  refine ⟨hflip, hother, updateLayerVisibility_records _ _ _, ?_⟩
  show updateLayerVisibility cf (toggleLegendItem cf s v).hiddenValues
      s.layers = _
  unfold updateLayerVisibility
  rw [if_neg (by simp [h1, h2])]
  refine List.map_congr_left fun l hl => ?_
  by_cases hcat : catValue l.record cf = v
  · rw [hcat, if_pos rfl]
    rcases hc2 : setHas (toggleLegendItem cf s v).hiddenValues v with _ | _ <;>
      simp [hc2]
  · have hsame := hother _ hcat
    rw [if_neg hcat, hsame]
    rcases hc : setHas s.hiddenValues (catValue l.record cf) with _ | _
    · rw [if_neg (by simp)]
      have hst : l.style = shownStyle := by rw [hcons l hl, hc]; rfl
      rw [← hst]
    · rw [if_pos rfl]
      have hst : l.style = hiddenStyle := by rw [hcons l hl, hc]; rfl
      rw [← hst]

/-- Witness for the amended C9 theorem: a concrete consistent two-feature
state with values `"A"` and `"B"`, toggling `"A"`. -/
theorem toggle_frame_effect_witness :
    (setHas (toggleLegendItem "status"
        { hiddenValues := []
          layers := [{ record := [("status", some "A")], style := shownStyle },
                     { record := [("status", some "B")], style := shownStyle }]
          legendItems := [] } "A").hiddenValues "A" =
        !setHas [] "A") ∧
      (∀ w, w ≠ "A" →
        setHas (toggleLegendItem "status"
            { hiddenValues := []
              layers :=
                [{ record := [("status", some "A")], style := shownStyle },
                 { record := [("status", some "B")], style := shownStyle }]
              legendItems := [] } "A").hiddenValues w =
          setHas [] w) ∧
      ((toggleLegendItem "status"
          { hiddenValues := []
            layers := [{ record := [("status", some "A")], style := shownStyle },
                       { record := [("status", some "B")], style := shownStyle }]
            legendItems := [] } "A").layers.map (fun l => l.record) =
        [[("status", some "A")], [("status", some "B")]]) ∧
      (toggleLegendItem "status"
          { hiddenValues := []
            layers := [{ record := [("status", some "A")], style := shownStyle },
                       { record := [("status", some "B")], style := shownStyle }]
            legendItems := [] } "A").layers =
        ([{ record := [("status", some "A")], style := shownStyle },
           { record := [("status", some "B")], style := shownStyle }] :
            List Layer).map (fun l =>
          if catValue l.record "status" = "A" then
            { l with style :=
                if setHas (toggleLegendItem "status"
                    { hiddenValues := []
                      layers :=
                        [{ record := [("status", some "A")],
                           style := shownStyle },
                         { record := [("status", some "B")],
                           style := shownStyle }]
                      legendItems := [] } "A").hiddenValues "A" then
                  hiddenStyle
                else shownStyle }
          else l) := by
  have h := toggle_frame_effect "status" "A"
    { hiddenValues := []
      layers := [{ record := [("status", some "A")], style := shownStyle },
                 { record := [("status", some "B")], style := shownStyle }]
      legendItems := [] }
    (by decide) (by decide)
    (by intro l hl
        simp only [List.mem_cons, List.not_mem_nil, or_false] at hl
        rcases hl with rfl | rfl <;> rfl)
  exact h

end GIS
